import Mathlib

/-!
Shallow embedding of the message-routing and amulet ("Sky-High Ambition")
sub-state reconstruction logic of `bot_manager.py` (class `BotManager`),
together with proofs of the specification claims about it.

Only the fields of `BotManager` that the claims are about are modelled:
the two session flow ids and the amulet bookkeeping fields.  External
collaborators (the liqi protocol parser, the automation module, the
browser) are modelled by their observable effects: parsing is represented
by an already-decoded optional message, and callback invocations are
recorded in an event trace paired with the state at the moment of the call.
-/

namespace MahjongCopilot

/-- Message type of a decoded liqi message (`liqi.MsgType`): request,
response or notify. -/
inductive MsgType where
  | REQ
  | RES
  | NOTIFY
deriving DecidableEq, Repr

/-- Websocket frame kind (`mitm.WsType`). -/
inductive WsType where
  | START
  | MESSAGE
  | END
deriving DecidableEq, Repr

/-- Protocol method names (`liqi.LiqiMethod`).  The constants used by
`bot_manager.py` are listed as constructors; any other method is
`other s` carrying its name string. -/
inductive LiqiMethod where
  | checkNetworkDelay
  | heartbeat
  | routeHeartbeat
  | loginBeat
  | fetchAccountActivityData
  | fetchServerTime
  | oauth2Login
  | fetchAmuletActivityData
  | amuletActivityUpgrade
  | amuletActivityOperate
  | amuletActivityGiveup
  | other (s : String)
deriving DecidableEq, Repr

/-- One element of a server pool array.  In the source each element is
expected to be a dict with `id` and `tile` keys; `mkDict` models a dict
whose keys may each be present or absent, `nonDict` models a non-dict
element (both are filtered out by the slicing code when `id` is absent). -/
inductive PoolElem where
  | mkDict (id : Option Int) (tile : Option String)
  | nonDict
deriving DecidableEq, Repr

/-- Reads `x.get("id")` for a pool element, guarded by
`isinstance(x, dict) and "id" in x`. -/
def PoolElem.getId : PoolElem → Option Int
  | .mkDict i _ => i
  | .nonDict => none

/-- A dirty-flagged diff field `{dirty: bool, value: ...}` as it appears
inside `valueChanges.round` of upgrade/operate events.  `value` is `none`
when the `value` key is absent or not of the expected shape. -/
structure DirtyField (α : Type) where
  dirty : Bool
  value : Option α
deriving DecidableEq, Repr

/-- The `round` sub-object of a `valueChanges` record of an
upgrade/operate event.  Each field is `none` when the key is absent. -/
structure EventRound where
  pool : Option (DirtyField (List PoolElem)) := none
  desktopRemain : Option (DirtyField Int) := none
  used : Option (DirtyField (List Int)) := none
  usedDesktop : Option (DirtyField (List Int)) := none
  hands : Option (DirtyField (List Int)) := none
deriving DecidableEq, Repr

/-- The `valueChanges` record of an upgrade/operate event. -/
structure VCObj where
  stage : Option Int := none
  ended : Option Bool := none
  round : Option EventRound := none
deriving DecidableEq, Repr

/-- One event of an `events` array (`ev.get("valueChanges")`). -/
structure EventObj where
  valueChanges : Option VCObj := none
deriving DecidableEq, Repr

/-- The `round` object of a fetch snapshot (`data.game.round`). -/
structure RoundObj where
  pool : Option (List PoolElem) := none
  hands : Option (List Int) := none
  desktopRemain : Option Int := none
  usedDesktop : Option (List Int) := none
  used : Option (List Int) := none
deriving DecidableEq, Repr

/-- The `game` object of a fetch snapshot (`data.game`).  A missing or
falsy `game` is modelled as absence of the whole object. -/
structure GameObj where
  stage : Option Int := none
  ended : Option Bool := none
  round : Option RoundObj := none
deriving DecidableEq, Repr

/-- The inner `data` object of a fetch payload (`liqi_data['data']`). -/
structure FetchInner where
  game : Option GameObj := none
deriving DecidableEq, Repr

/-- The `data` field of a decoded liqi message: a fetch snapshot carries
`data.game`, upgrade/operate messages carry `events`. -/
structure LiqiData where
  data : Option FetchInner := none
  events : Option (List EventObj) := none
deriving DecidableEq, Repr

/-- A decoded liqi message `{id, type, method, data}`. -/
structure LiqiMsg where
  id : Int
  type : MsgType
  method : LiqiMethod
  data : LiqiData
deriving DecidableEq, Repr

/-- A websocket frame from the mitm server (`mitm.WSMessage`).  `content`
is the result of `liqi_parser.parse` on the raw payload: `none` models a
parse failure (the handler logs and returns). -/
structure WSMessage where
  type : WsType
  flow_id : String
  content : Option LiqiMsg := none
deriving DecidableEq, Repr

/-- The `_amulet_info` display dict `{stage, hands, desktop_remain, ended}`. -/
structure AmuletInfo where
  stage : Int
  hands : List Int
  desktop_remain : Int
  ended : Bool
deriving DecidableEq, Repr

/-- The fields of `BotManager` that the session/amulet claims are about,
with the names of the Python attributes (leading underscores dropped). -/
structure BMState where
  lobby_flow_id : Option String
  game_flow_id : Option String
  amulet_active : Bool
  amulet_info : AmuletInfo
  amulet_pending_action : Option Unit
  amulet_pool : Option (List PoolElem)
  amulet_draw_ids : List Int
  amulet_used_ids : Finset Int
  amulet_desktop_remain : Int
  amulet_replace_ids : List Int
  amulet_replace_cursor : Int
deriving DecidableEq

/-- The state right after `BotManager.__init__`. -/
def initState : BMState where
  lobby_flow_id := none
  game_flow_id := none
  amulet_active := false
  amulet_info := ⟨0, [], 0, false⟩
  amulet_pending_action := none
  amulet_pool := none
  amulet_draw_ids := []
  amulet_used_ids := ∅
  amulet_desktop_remain := 0
  amulet_replace_ids := []
  amulet_replace_cursor := 0

/-- Callbacks invoked on the external automation collaborator. -/
inductive CB where
  | onLobbyLogin
  | onExitLobby
  | onEndGame
deriving DecidableEq, Repr

/-- Python `x or d` on an integer: `x` when nonzero, else `d`. -/
def pyOrInt (x d : Int) : Int := if x = 0 then d else x

/-- Python truthiness of the `_amulet_pool` attribute (`None` and the
empty list are falsy). -/
def poolTruthy : Option (List PoolElem) → Bool
  | some l => !l.isEmpty
  | none => false

/-- The static ignore list `METHODS_TO_IGNORE` of `bot_manager.py`
(lines 27–35), in source order.  Note that it contains
`oauth2Login` and `fetchAccountActivityData` in addition to the
keepalive/heartbeat methods. -/
def METHODS_TO_IGNORE : List LiqiMethod :=
  [ .checkNetworkDelay, .heartbeat, .routeHeartbeat, .loginBeat,
    .fetchAccountActivityData, .fetchServerTime, .oauth2Login ]

/-- Case-insensitive containment of "amulet" in a method-name string,
modelling Python `"amulet" in s.lower()`. -/
def lowerHasAmulet (s : String) : Bool :=
  let cs := s.toLower.data
  (List.range (cs.length + 1)).any fun i => List.isPrefixOf "amulet".data (cs.drop i)

/-- Modelled from the spec: the `liqi` module (not under `src/`) defines
the method-name constants as strings; per the spec's routing rule, the
check `'amulet' in liqi_method.lower()` holds exactly for the amulet
sub-game family (`fetchAmuletActivityData`, `amuletActivityUpgrade`,
`amuletActivityOperate`, `amuletActivityGiveup`) and for no method of the
ignore list nor `oauth2Login`; for an unknown method carrying its name
string the substring test is performed on that string. -/
def isAmuletMethod : LiqiMethod → Bool
  | .fetchAmuletActivityData => true
  | .amuletActivityUpgrade => true
  | .amuletActivityOperate => true
  | .amuletActivityGiveup => true
  | .other s => lowerHasAmulet s
  | _ => false

/-- Model of `BotManager._amulet_set_pool_from_array` (lines 447–463): store the
pool, slice out the draw segment (`pool[23:59]`) and the replace queue
(`pool[59:108]`) keeping only dict elements with an `id`, then reset the
used set, the desktop remain count and the replace cursor. -/
def amuletSetPoolFromArray (pool : List PoolElem) (s : BMState) : BMState :=
  let draw_slice := (pool.drop 23).take 36
  let draw_ids := draw_slice.filterMap PoolElem.getId
  let rep_slice := (pool.drop 59).take 49
  let rep_ids := rep_slice.filterMap PoolElem.getId
  { s with
    amulet_pool := some pool
    amulet_draw_ids := draw_ids
    amulet_replace_ids := rep_ids
    amulet_used_ids := ∅
    amulet_desktop_remain := 36
    amulet_replace_cursor := 0 }

/-- Model of `BotManager._amulet_on_fetch_data` (lines 349–385): if the payload
carries a non-empty pool, (re)set the pool; refresh the display info;
then unconditionally overwrite the used-id set from `usedDesktop`
(absent reads as empty), the desktop remain count from `desktopRemain`
(absent reads as 0) and the replace cursor from the length of `used`
(absent reads as the empty list). -/
def amuletOnFetchData (liqi_data : LiqiData) (s : BMState) : BMState :=
  let game := match liqi_data.data with
    | some fi => fi.game
    | none => none
  match game with
  | none => s
  | some g =>
    let round_obj := g.round.getD {}
    let pool := round_obj.pool.getD []
    let s1 := if pool.isEmpty then s else amuletSetPoolFromArray pool s
    let round_obj2 := g.round.getD {}
    let info1 := { s1.amulet_info with
      stage := pyOrInt (g.stage.getD 0) 0
      ended := g.ended.getD false }
    let info2 := { info1 with hands := round_obj2.hands.getD [] }
    let info3 := match round_obj2.desktopRemain with
      | some dr => { info2 with desktop_remain := pyOrInt dr 0 }
      | none => info2
    let s2 := { s1 with amulet_info := info3 }
    let s3 := { s2 with amulet_used_ids := (round_obj.usedDesktop.getD []).toFinset }
    let s4 := { s3 with amulet_desktop_remain := pyOrInt (round_obj.desktopRemain.getD 0) 0 }
    let used_replace := round_obj.used.getD []
    { s4 with amulet_replace_cursor := (used_replace.length : Int) }

/-- One iteration of the loop of `BotManager._amulet_on_upgrade_events`
(lines 389–405): a dirty full pool array runs the pool-(re)set routine;
a dirty `desktopRemain` overwrites the remain count; a dirty `used`
overwrites the replace cursor with its length. -/
def upgradeStep (s : BMState) (ev : EventObj) : BMState :=
  let rd := (ev.valueChanges.getD {}).round.getD {}
  let s1 := match rd.pool with
    | some p => if p.dirty && p.value.isSome then amuletSetPoolFromArray (p.value.getD []) s else s
    | none => s
  let s2 := match rd.desktopRemain with
    | some dr => if dr.dirty then { s1 with amulet_desktop_remain := pyOrInt (dr.value.getD 0) 0 } else s1
    | none => s1
  match rd.used with
  | some ur => if ur.dirty then { s2 with amulet_replace_cursor := ((ur.value.getD []).length : Int) } else s2
  | none => s2

/-- One iteration of the loop of `BotManager._amulet_update_from_events`
(lines 670–695): refresh the display info dict from one event. -/
def updateInfoStep (s : BMState) (ev : EventObj) : BMState :=
  let vc := ev.valueChanges.getD {}
  let info1 := match vc.stage with
    | some st => { s.amulet_info with stage := st }
    | none => s.amulet_info
  let rd := vc.round.getD {}
  let info2 := match rd.hands with
    | some h => if h.dirty then { info1 with hands := h.value.getD [] } else info1
    | none => info1
  let info3 := match rd.desktopRemain with
    | some dr => if dr.dirty then { info2 with desktop_remain := dr.value.getD 0 } else info2
    | none => info2
  let info4 := match vc.ended with
    | some b => { info3 with ended := b }
    | none => info3
  { s with amulet_info := info4 }

/-- Model of `BotManager._amulet_update_from_events` over a whole batch. -/
def amuletUpdateFromEvents (events : List EventObj) (s : BMState) : BMState :=
  events.foldl updateInfoStep s

/-- Model of `BotManager._amulet_on_upgrade_events` (lines 387–410): the event
loop followed by the display-info refresh. -/
def amuletOnUpgradeEvents (events : List EventObj) (s : BMState) : BMState :=
  amuletUpdateFromEvents events (events.foldl upgradeStep s)

/-- One iteration of the loop of `BotManager._amulet_on_operate_events`
(lines 412–436): a dirty `usedDesktop` fully overwrites the used-id set;
a dirty `desktopRemain` overwrites the remain count; a dirty `used`
overwrites the replace cursor with its length. -/
def operateStep (s : BMState) (ev : EventObj) : BMState :=
  let rd := (ev.valueChanges.getD {}).round.getD {}
  let s1 := match rd.usedDesktop with
    | some u => if u.dirty then { s with amulet_used_ids := (u.value.getD []).toFinset } else s
    | none => s
  let s2 := match rd.desktopRemain with
    | some dr => if dr.dirty then { s1 with amulet_desktop_remain := pyOrInt (dr.value.getD 0) 0 } else s1
    | none => s1
  match rd.used with
  | some ur => if ur.dirty then { s2 with amulet_replace_cursor := ((ur.value.getD []).length : Int) } else s2
  | none => s2

/-- Model of `BotManager._amulet_on_operate_events` (lines 412–445): the event
loop followed by the display-info refresh. -/
def amuletOnOperateEvents (events : List EventObj) (s : BMState) : BMState :=
  amuletUpdateFromEvents events (events.foldl operateStep s)

/-- The `amuletActivityGiveup` branch of `BotManager._process_msg`
(lines 644–658): deactivate the subsystem and clear every derived
structure and the display info to its inactive default. -/
def giveupReset (s : BMState) : BMState :=
  { s with
    amulet_active := false
    amulet_pool := none
    amulet_draw_ids := []
    amulet_used_ids := ∅
    amulet_desktop_remain := 0
    amulet_replace_ids := []
    amulet_replace_cursor := 0
    amulet_info := ⟨0, [], 0, false⟩ }

/-- Model of `BotManager._process_msg` (lines 587–659), restricted to the state
fields modelled here.  Returns the new state together with the trace of
callbacks invoked on the automation collaborator, each paired with the
state at the moment of the call (the source mutates `self` in statement
order; the pairing records which mutations precede which call).
`_process_end_game` clears game-scoped state not modelled here and ends
by calling `automation.on_end_game`. -/
def processMsg (s : BMState) (msg : WSMessage) : BMState × List (CB × BMState) :=
  match msg.type with
  | .START => (s, [])
  | .END =>
    let (s1, t1) :=
      if s.game_flow_id = some msg.flow_id then
        ({ s with game_flow_id := none }, [(CB.onEndGame, s)])
      else (s, [])
    let (s2, t2) :=
      if s1.lobby_flow_id = some msg.flow_id then
        let s' := { s1 with lobby_flow_id := none }
        (s', [(CB.onExitLobby, s')])
      else (s1, [])
    (s2, t1 ++ t2)
  | .MESSAGE =>
    match msg.content with
    | none => (s, [])
    | some lm =>
      if lm.method ∈ METHODS_TO_IGNORE then
        (s, [])
      else if lm.type = MsgType.RES ∧ lm.method = LiqiMethod.oauth2Login then
        match s.lobby_flow_id with
        | none =>
          let s' := { s with lobby_flow_id := some msg.flow_id }
          (s', [(CB.onLobbyLogin, s')])
        | some _ => (s, [])
      else if isAmuletMethod lm.method then
        if lm.type ≠ MsgType.RES then (s, [])
        else if lm.method = LiqiMethod.fetchAmuletActivityData then
          (amuletOnFetchData lm.data { s with amulet_active := true }, [])
        else if lm.method = LiqiMethod.amuletActivityUpgrade then
          (amuletOnUpgradeEvents (lm.data.events.getD []) { s with amulet_active := true }, [])
        else if lm.method = LiqiMethod.amuletActivityOperate then
          (amuletOnOperateEvents (lm.data.events.getD []) { s with amulet_active := true }, [])
        else if lm.method = LiqiMethod.amuletActivityGiveup then
          (giveupReset s, [])
        else (s, [])
      else (s, [])

/-- Model of `BotManager.is_in_amulet` (lines 777–778). -/
def is_in_amulet (s : BMState) : Bool := s.amulet_active

/-- Model of `BotManager.get_amulet_info` (lines 780–782): a copy of the info
dict while active, else `None`. -/
def get_amulet_info (s : BMState) : Option AmuletInfo :=
  if s.amulet_active then some s.amulet_info else none

/-- Model of `BotManager.get_amulet_pending_action` (lines 784–785). -/
def get_amulet_pending_action (s : BMState) : Option Unit :=
  s.amulet_pending_action

/-- Model of `BotManager.get_amulet_replace_cursor` (lines 801–803):
`int(self._amulet_replace_cursor or 0)` — no clamping. -/
def get_amulet_replace_cursor (s : BMState) : Int :=
  pyOrInt s.amulet_replace_cursor 0

/-- The id→tile table built by the display helpers: iterate the pool and
keep dict entries having both `id` and `tile`; a later entry with the
same id overwrites an earlier one. -/
def id2tile (pool : List PoolElem) (pid : Int) : Option String :=
  ((pool.filterMap fun e => match e with
      | .mkDict (some i) (some t) => some (i, t)
      | _ => none).reverse.lookup pid)

/-- Model of `BotManager.get_amulet_replace_queue` (lines 787–799). -/
def get_amulet_replace_queue (s : BMState) : List String :=
  if !(s.amulet_active && poolTruthy s.amulet_pool && !s.amulet_replace_ids.isEmpty) then []
  else
    let pool := s.amulet_pool.getD []
    s.amulet_replace_ids.map fun pid => (id2tile pool pid).getD "?"

/-- Model of `BotManager.get_amulet_replace_text` (lines 529–585), parameterised
by the external symbol→emoji conversion `_as_emoji` (which resolves
through `common.mj_helper`, outside the modelled core). -/
def get_amulet_replace_text (cvt : String → String) (s : BMState) : String :=
  if !(s.amulet_active && poolTruthy s.amulet_pool && !s.amulet_replace_ids.isEmpty) then ""
  else if s.amulet_info.stage ≠ 2 then ""
  else
    let pool := s.amulet_pool.getD []
    let tiles := s.amulet_replace_ids.map fun pid => (id2tile pool pid).getD "?"
    let emojis := tiles.map cvt
    let cur0 := pyOrInt s.amulet_replace_cursor 0
    let cur1 := if cur0 < 0 then 0 else cur0
    let cur := if cur1 > (emojis.length : Int) then (emojis.length : Int) else cur1
    let seq := emojis.take cur.toNat ++ ["｜"] ++ emojis.drop cur.toNat
    let text_line := String.intercalate " " seq
    let header := "[待替换 " ++ toString cur ++ "/" ++ toString emojis.length ++ "]"
    header ++ "\n" ++ text_line

/-- The clamped cursor value rendered by `get_amulet_replace_text`
(the local variable `cur` of lines 571–576). -/
def renderedReplaceCursor (s : BMState) : Int :=
  let cur0 := pyOrInt s.amulet_replace_cursor 0
  let cur1 := if cur0 < 0 then 0 else cur0
  if cur1 > (s.amulet_replace_ids.length : Int) then (s.amulet_replace_ids.length : Int) else cur1

/-- The row-chunking loop of `_chunk_by9_tail_first` after the first
(short) row has been split off: repeatedly take 9 elements. -/
def chunks9 (l : List String) : List (List String) :=
  if h : l.isEmpty then []
  else l.take 9 :: chunks9 (l.drop 9)
termination_by l.length
decreasing_by
  have hl : l ≠ [] := by
    intro he
    rw [he] at h
    simp at h
  have : 0 < l.length := List.length_pos.mpr hl
  simp [List.length_drop]
  omega

/-- Model of `_chunk_by9_tail_first` (lines 497–508 of `bot_manager.py`): the
first row holds `n % 9` elements when that remainder is nonzero, every
following row holds 9. -/
def chunkBy9TailFirst (seq : List String) : List (List String) :=
  let r := seq.length % 9
  if r ≠ 0 then seq.take r :: chunks9 (seq.drop r)
  else chunks9 seq

/-- The sorted frequency tally of lines 522–524: distinct tile symbols
in ascending string order, each with its number of occurrences
(`sorted(Counter(tiles).items())`). -/
def statPairs (tiles : List String) : List (String × Nat) :=
  (List.insertionSort (· ≤ ·) tiles.dedup).map fun t => (t, tiles.count t)

/-- Model of `BotManager.get_amulet_drawable_text` (lines 467–527), parameterised
by the external symbol→emoji conversion `_as_emoji`. -/
def get_amulet_drawable_text (cvt : String → String) (s : BMState) : String :=
  if !(s.amulet_active && poolTruthy s.amulet_pool && !s.amulet_draw_ids.isEmpty) then ""
  else
    let pool := s.amulet_pool.getD []
    let remain : Int :=
      max 0 (min (pyOrInt s.amulet_desktop_remain 0) (s.amulet_draw_ids.length : Int))
    if remain = 0 then "[可摸剩余 0/36]"
    else
      let remain_ids := s.amulet_draw_ids.drop (s.amulet_draw_ids.length - remain.toNat)
      let remain_tiles := remain_ids.map fun pid => (id2tile pool pid).getD "?"
      let rows := chunkBy9TailFirst remain_tiles
      let line_strs := rows.map fun row => String.intercalate " " (row.map cvt)
      let stat_line := String.intercalate " "
        ((statPairs remain_tiles).map fun p => cvt p.1 ++ "×" ++ toString p.2)
      let header := "[可摸剩余 " ++ toString remain ++ "/36]"
      String.intercalate "\n" (header :: (line_strs ++ [stat_line]))

/-- The states of `BotManager` reachable from construction by processing
websocket messages through `_process_msg`. -/
inductive Reachable : BMState → Prop where
  | init : Reachable initState
  | step {s : BMState} (msg : WSMessage) : Reachable s → Reachable (processMsg s msg).1

/-- An upgrade event whose `valueChanges.round.pool` is a dirty full
pool array and which carries no other dirty field. -/
def poolResetEvent (pool : List PoolElem) : EventObj :=
  { valueChanges := some { round := some { pool := some ⟨true, some pool⟩ } } }

/-- C2: every execution of the pool-(re)set routine
`_amulet_set_pool_from_array` — in particular the one triggered by a
dirty-flagged full pool array inside an upgrade event — leaves
`DesktopRemain = 36`, `UsedIdSet = ∅` and `ReplaceCursor = 0`
immediately after the routine, for every possible prior value of those
three fields. -/
theorem C2_pool_reset_defaults :
    (∀ (pool : List PoolElem) (s : BMState),
        (amuletSetPoolFromArray pool s).amulet_desktop_remain = 36 ∧
        (amuletSetPoolFromArray pool s).amulet_used_ids = ∅ ∧
        (amuletSetPoolFromArray pool s).amulet_replace_cursor = 0) ∧
    (∀ (pool : List PoolElem) (s : BMState),
        upgradeStep s (poolResetEvent pool) = amuletSetPoolFromArray pool s) := by
  constructor
  · intro pool s
    exact ⟨rfl, rfl, rfl⟩
  · intro pool s
    rfl

/-- An operate event whose `valueChanges.round.usedDesktop` is a dirty
value list and which carries no other dirty field. -/
def usedOverwriteEvent (V : List Int) : EventObj :=
  { valueChanges := some { round := some { usedDesktop := some ⟨true, some V⟩ } } }

/-- C7: a dirty-flagged `usedDesktop` update with value list `V` makes
`UsedIdSet` exactly the set of ids in `V`, independently of the prior
set — in particular prior set `{1,2,3}` with dirty value `[4]` yields
exactly `{4}`, not the union `{1,2,3,4}`. -/
theorem C7_used_overwrite :
    (∀ (V : List Int) (s : BMState),
        (amuletOnOperateEvents [usedOverwriteEvent V] s).amulet_used_ids = V.toFinset) ∧
    (amuletOnOperateEvents [usedOverwriteEvent [4]]
        { initState with amulet_used_ids := {1, 2, 3} }).amulet_used_ids = {4} ∧
    ({4} : Finset Int) ≠ {1, 2, 3, 4} := by
  refine ⟨fun V s => rfl, by decide, by decide⟩

/-- C8: processing an `amuletActivityGiveup` response from any prior
state deactivates the amulet subsystem, clears the pool, both derived
segments, the used-id set, the remain count, the replace cursor and the
display info to inactive defaults, invokes no callback, and every
display query on the resulting state returns an empty result. -/
theorem C8_giveup_clears (s : BMState) (fid : String) (mid : Int)
    (d : LiqiData) (cvt : String → String) :
    processMsg s
      { type := .MESSAGE, flow_id := fid,
        content := some { id := mid, type := .RES,
                          method := .amuletActivityGiveup, data := d } }
      = (giveupReset s, []) ∧
    is_in_amulet (giveupReset s) = false ∧
    (giveupReset s).amulet_pool = none ∧
    (giveupReset s).amulet_draw_ids = [] ∧
    (giveupReset s).amulet_replace_ids = [] ∧
    (giveupReset s).amulet_used_ids = ∅ ∧
    (giveupReset s).amulet_desktop_remain = 0 ∧
    (giveupReset s).amulet_replace_cursor = 0 ∧
    (giveupReset s).amulet_info = ⟨0, [], 0, false⟩ ∧
    get_amulet_info (giveupReset s) = none ∧
    get_amulet_drawable_text cvt (giveupReset s) = "" ∧
    get_amulet_replace_text cvt (giveupReset s) = "" ∧
    get_amulet_replace_queue (giveupReset s) = [] ∧
    get_amulet_replace_cursor (giveupReset s) = 0 := by
  refine ⟨rfl, rfl, rfl, rfl, rfl, rfl, rfl, rfl, rfl, rfl, rfl, rfl, rfl, rfl⟩

/-- A MESSAGE frame decoding to the login-response pair
`(RESPONSE, oauth2Login)`, observed while no lobby flow is active. -/
def loginResponseMsg : WSMessage :=
  { type := .MESSAGE, flow_id := "f1",
    content := some { id := 1, type := .RES, method := .oauth2Login, data := {} } }

/-- C1: the static ignore list contains `oauth2Login`, so a MESSAGE
frame decoding to `(RESPONSE, oauth2Login)` while `lobby_flow_id` is
empty is swallowed by the ignore branch: the state is unchanged — the
lobby flow id is not assigned — and no callback is invoked; the
dedicated login branch of `_process_msg` is unreachable. -/
theorem C1_login_response_ignored :
    LiqiMethod.oauth2Login ∈ METHODS_TO_IGNORE ∧
    initState.lobby_flow_id = none ∧
    processMsg initState loginResponseMsg = (initState, []) ∧
    (processMsg initState loginResponseMsg).1.lobby_flow_id = none :=
  ⟨by decide, rfl, rfl, rfl⟩

/-- A state whose active lobby flow id is `"L"`. -/
def lobbyActiveState : BMState := { initState with lobby_flow_id := some "L" }

/-- The END frame of flow `"L"`. -/
def lobbyEndMsg : WSMessage := { type := .END, flow_id := "L" }

/-- C9 counterexample: processing an END frame matching the active
lobby flow invokes the on-exit-lobby callback at a moment where
`lobby_flow_id` is already cleared to `None` — not, as claimed, while
it still holds the ending flow's id. -/
theorem C9_callback_sees_cleared_lobby :
    lobbyActiveState.lobby_flow_id = some "L" ∧
    (processMsg lobbyActiveState lobbyEndMsg).2
      = [(CB.onExitLobby, { lobbyActiveState with lobby_flow_id := none })] ∧
    ((processMsg lobbyActiveState lobbyEndMsg).2.map fun p => p.2.lobby_flow_id) = [none] :=
  ⟨rfl, rfl, rfl⟩

/-- C9 (amended): an END frame matching the active lobby flow first
clears `lobby_flow_id` and only then invokes the on-exit-lobby
callback, so at the moment the callback fires the lobby flow id is
already `None`; this is the opposite order of the game-flow END
handling, where the end-game finalize callback runs while
`game_flow_id` is still set and the id is cleared afterwards. -/
theorem C9_clear_then_exit_callback :
    (∀ (s : BMState) (f : String),
        s.lobby_flow_id = some f → s.game_flow_id ≠ some f →
        processMsg s { type := .END, flow_id := f }
          = ({ s with lobby_flow_id := none },
             [(CB.onExitLobby, { s with lobby_flow_id := none })])) ∧
    (∀ (s : BMState) (g : String),
        s.game_flow_id = some g →
        (processMsg s { type := .END, flow_id := g }).2.head? = some (CB.onEndGame, s) ∧
        s.game_flow_id = some g ∧
        (processMsg s { type := .END, flow_id := g }).1.game_flow_id = none) := by
  constructor
  · intro s f hl hg
    simp only [processMsg, if_neg hg, if_pos hl, List.nil_append]
  · intro s g hgf
    refine ⟨?_, hgf, ?_⟩ <;>
      simp only [processMsg, if_pos hgf] <;> split <;> rfl

/-- Witness for C9 (amended), at the concrete lobby-END input. -/
theorem C9_clear_then_exit_callback_witness :
    processMsg lobbyActiveState lobbyEndMsg
      = ({ lobbyActiveState with lobby_flow_id := none },
         [(CB.onExitLobby, { lobbyActiveState with lobby_flow_id := none })]) :=
  C9_clear_then_exit_callback.1 lobbyActiveState "L" rfl (by decide)

/-- A full 108-element pool array whose entries all carry an id and a
tile symbol. -/
def pool108 : List PoolElem :=
  (List.range 108).map fun i => PoolElem.mkDict (some (i : Int)) (some "1m")

/-- A fetch-snapshot response carrying a 108-element pool array but no
`usedDesktop`, no `desktopRemain` and no replacement-history `used`
field. -/
def fetchNoResumeMsg : WSMessage :=
  { type := .MESSAGE, flow_id := "f2",
    content := some
      { id := 2, type := .RES, method := .fetchAmuletActivityData,
        data := { data := some { game := some { round := some { pool := some pool108 } } } } } }

/-- C3 counterexample: after processing a fetch snapshot with a
108-element pool but no `usedDesktop`, `desktopRemain` or `used`
fields, `DesktopRemain` is 0 — not 36 as the claim states — because the
fetch handler unconditionally overwrites it with the payload value read
with default 0. -/
theorem C3_remain_overwritten_cex :
    pool108.length = 108 ∧
    (processMsg initState fetchNoResumeMsg).1.amulet_desktop_remain = 0 ∧
    ¬ (processMsg initState fetchNoResumeMsg).1.amulet_desktop_remain = 36 :=
  ⟨by decide, rfl, by decide⟩

/-- Routing fact: a `fetchAmuletActivityData` response is dispatched by
`_process_msg` to the fetch handler after activating the subsystem. -/
theorem processMsg_fetch_eq (s : BMState) (fid : String) (mid : Int) (d : LiqiData) :
    processMsg s
      { type := .MESSAGE, flow_id := fid,
        content := some { id := mid, type := .RES,
                          method := .fetchAmuletActivityData, data := d } }
      = (amuletOnFetchData d { s with amulet_active := true }, []) := rfl

/-- Routing fact: an `amuletActivityOperate` response is dispatched by
`_process_msg` to the operate handler after activating the subsystem. -/
theorem processMsg_operate_eq (s : BMState) (fid : String) (mid : Int) (d : LiqiData) :
    processMsg s
      { type := .MESSAGE, flow_id := fid,
        content := some { id := mid, type := .RES,
                          method := .amuletActivityOperate, data := d } }
      = (amuletOnOperateEvents (d.events.getD []) { s with amulet_active := true }, []) := rfl

/-- Routing fact: an `amuletActivityUpgrade` response is dispatched by
`_process_msg` to the upgrade handler after activating the subsystem. -/
theorem processMsg_upgrade_eq (s : BMState) (fid : String) (mid : Int) (d : LiqiData) :
    processMsg s
      { type := .MESSAGE, flow_id := fid,
        content := some { id := mid, type := .RES,
                          method := .amuletActivityUpgrade, data := d } }
      = (amuletOnUpgradeEvents (d.events.getD []) { s with amulet_active := true }, []) := rfl

/-- C3 (amended): for every fetch-snapshot payload carrying a
108-element pool array but no `usedDesktop`, no `desktopRemain` and no
replacement-history `used` field, the state after the fetch has
`UsedIdSet` empty and `ReplaceCursor` 0 (the reset defaults), but
`DesktopRemain` equal to 0 — not 36 — since the handler unconditionally
adopts the missing field as 0. -/
theorem C3_fetch_no_resume_defaults (s : BMState) (g : GameObj) (r : RoundObj)
    (pool : List PoolElem) (fid : String) (mid : Int)
    (hr : g.round = some r) (hpool : r.pool = some pool) (h108 : pool.length = 108)
    (hused : r.usedDesktop = none) (hdr : r.desktopRemain = none) (hu : r.used = none) :
    ((processMsg s
        { type := .MESSAGE, flow_id := fid,
          content := some { id := mid, type := .RES, method := .fetchAmuletActivityData,
                            data := { data := some { game := some g } } } }).1.amulet_used_ids,
     (processMsg s
        { type := .MESSAGE, flow_id := fid,
          content := some { id := mid, type := .RES, method := .fetchAmuletActivityData,
                            data := { data := some { game := some g } } } }).1.amulet_desktop_remain,
     (processMsg s
        { type := .MESSAGE, flow_id := fid,
          content := some { id := mid, type := .RES, method := .fetchAmuletActivityData,
                            data := { data := some { game := some g } } } }).1.amulet_replace_cursor)
      = (∅, 0, 0) := by
  rw [processMsg_fetch_eq]
  unfold amuletOnFetchData
  simp only [hr, hpool, hused, hdr, hu]
  simp [pyOrInt, hused, hdr, hu]

/-- Witness for C3 (amended), at the concrete no-resume fetch input. -/
theorem C3_fetch_no_resume_defaults_witness :
    ((processMsg initState fetchNoResumeMsg).1.amulet_used_ids,
     (processMsg initState fetchNoResumeMsg).1.amulet_desktop_remain,
     (processMsg initState fetchNoResumeMsg).1.amulet_replace_cursor)
      = (∅, 0, 0) :=
  C3_fetch_no_resume_defaults initState
    { round := some { pool := some pool108 } } { pool := some pool108 }
    pool108 "f2" 2 rfl rfl (by decide) rfl rfl rfl

/-- Slicing a mapped pool of id/tile records and keeping the ids is the
same as slicing the id sequence. -/
theorem filterMap_getId_slice (entries : List (Int × String)) (a b : Nat) :
    (((entries.map fun p => PoolElem.mkDict (some p.1) (some p.2)).drop a).take b).filterMap
        PoolElem.getId
      = ((entries.map Prod.fst).drop a).take b := by
  rw [← List.map_drop, ← List.map_take, List.filterMap_map]
  have hc : (PoolElem.getId ∘ fun p : Int × String => PoolElem.mkDict (some p.1) (some p.2))
      = some ∘ Prod.fst := rfl
  rw [hc, List.filterMap_eq_map, List.map_take, List.map_drop]

/-- C4: for every snapshot whose pool array has exactly 108 elements,
each a record with an id, the pool-(re)set routine makes `DrawSegment`
exactly the 36 ids at pool indices 23–58 in order and `ReplaceQueue`
exactly the 49 ids at pool indices 59–107 in order, whatever the tile
symbols are. -/
theorem C4_segments_by_fixed_indices (entries : List (Int × String)) (s : BMState)
    (h108 : entries.length = 108) :
    ((amuletSetPoolFromArray (entries.map fun p => PoolElem.mkDict (some p.1) (some p.2))
        s).amulet_draw_ids
      = ((entries.map Prod.fst).drop 23).take 36) ∧
    ((amuletSetPoolFromArray (entries.map fun p => PoolElem.mkDict (some p.1) (some p.2))
        s).amulet_replace_ids
      = ((entries.map Prod.fst).drop 59).take 49) ∧
    ((amuletSetPoolFromArray (entries.map fun p => PoolElem.mkDict (some p.1) (some p.2))
        s).amulet_draw_ids.length = 36) ∧
    ((amuletSetPoolFromArray (entries.map fun p => PoolElem.mkDict (some p.1) (some p.2))
        s).amulet_replace_ids.length = 49) ∧
    (∀ j, j < 36 →
      (amuletSetPoolFromArray (entries.map fun p => PoolElem.mkDict (some p.1) (some p.2))
          s).amulet_draw_ids[j]?
        = (entries.map Prod.fst)[23 + j]?) ∧
    (∀ j, j < 49 →
      (amuletSetPoolFromArray (entries.map fun p => PoolElem.mkDict (some p.1) (some p.2))
          s).amulet_replace_ids[j]?
        = (entries.map Prod.fst)[59 + j]?) := by
  have hdraw := filterMap_getId_slice entries 23 36
  have hrep := filterMap_getId_slice entries 59 49
  have hd : (amuletSetPoolFromArray (entries.map fun p => PoolElem.mkDict (some p.1) (some p.2))
      s).amulet_draw_ids = ((entries.map Prod.fst).drop 23).take 36 := by
    simpa [amuletSetPoolFromArray] using hdraw
  have hrp : (amuletSetPoolFromArray (entries.map fun p => PoolElem.mkDict (some p.1) (some p.2))
      s).amulet_replace_ids = ((entries.map Prod.fst).drop 59).take 49 := by
    simpa [amuletSetPoolFromArray] using hrep
  refine ⟨hd, hrp, ?_, ?_, ?_, ?_⟩
  · rw [hd]
    simp [List.length_take, List.length_drop, h108]
  · rw [hrp]
    simp [List.length_take, List.length_drop, h108]
  · intro j hj
    rw [hd, List.getElem?_take_of_lt hj, List.getElem?_drop]
  · intro j hj
    rw [hrp, List.getElem?_take_of_lt hj, List.getElem?_drop]

/-- A concrete 108-entry id/tile list. -/
def entries108 : List (Int × String) := (List.range 108).map fun i => ((i : Int), "1m")

/-- Witness for C4, at a concrete 108-element pool. -/
theorem C4_segments_by_fixed_indices_witness :
    ((amuletSetPoolFromArray (entries108.map fun p => PoolElem.mkDict (some p.1) (some p.2))
        initState).amulet_draw_ids.length = 36) ∧
    ((amuletSetPoolFromArray (entries108.map fun p => PoolElem.mkDict (some p.1) (some p.2))
        initState).amulet_replace_ids.length = 49) :=
  ⟨(C4_segments_by_fixed_indices entries108 initState (by decide)).2.2.1,
   (C4_segments_by_fixed_indices entries108 initState (by decide)).2.2.2.1⟩

/-- A fold preserves any state predicate its step preserves. -/
theorem foldl_preserves {P : BMState → Prop} {f : BMState → EventObj → BMState}
    (hf : ∀ s ev, P s → P (f s ev)) :
    ∀ (events : List EventObj) (s : BMState), P s → P (events.foldl f s)
  | [], _, hs => hs
  | e :: t, s, hs => by
    rw [List.foldl_cons]
    exact foldl_preserves hf t (f s e) (hf s e hs)

/-- A fold whose step keeps the pending-action field keeps it too. -/
theorem foldl_pending {f : BMState → EventObj → BMState}
    (hf : ∀ s ev, (f s ev).amulet_pending_action = s.amulet_pending_action) :
    ∀ (events : List EventObj) (s : BMState),
      (events.foldl f s).amulet_pending_action = s.amulet_pending_action
  | [], _ => rfl
  | e :: t, s => by
    rw [List.foldl_cons, foldl_pending hf t, hf]

/-- The fetch handler never touches the pending-action field. -/
theorem amuletOnFetchData_pending (d : LiqiData) (s : BMState) :
    (amuletOnFetchData d s).amulet_pending_action = s.amulet_pending_action := by
  unfold amuletOnFetchData
  rcases d with ⟨dd, ev⟩
  rcases dd with _ | fi
  · rfl
  · rcases fi with ⟨g⟩
    rcases g with _ | g
    · rfl
    · simp only []
      split <;> rfl

/-- The upgrade event step never touches the pending-action field. -/
theorem upgradeStep_pending (s : BMState) (ev : EventObj) :
    (upgradeStep s ev).amulet_pending_action = s.amulet_pending_action := by
  unfold upgradeStep
  dsimp only
  repeat' split
  all_goals rfl

/-- The operate event step never touches the pending-action field. -/
theorem operateStep_pending (s : BMState) (ev : EventObj) :
    (operateStep s ev).amulet_pending_action = s.amulet_pending_action := by
  unfold operateStep
  dsimp only
  repeat' split
  all_goals rfl

/-- The display-info refresh step never touches the pending-action field. -/
theorem updateInfoStep_pending (s : BMState) (ev : EventObj) :
    (updateInfoStep s ev).amulet_pending_action = s.amulet_pending_action := rfl

/-- Fact: `_process_msg` never assigns the pending-action field. -/
theorem processMsg_pending (s : BMState) (msg : WSMessage) :
    (processMsg s msg).1.amulet_pending_action = s.amulet_pending_action := by
  unfold processMsg
  rcases msg with ⟨ty, fid, content⟩
  cases ty with
  | START => rfl
  | END =>
    simp only []
    split <;> split <;> rfl
  | MESSAGE =>
    rcases content with _ | lm
    · rfl
    · simp only []
      split
      · rfl
      split
      · split <;> rfl
      split
      · split
        · rfl
        · split
          · exact amuletOnFetchData_pending _ _
          · split
            · unfold amuletOnUpgradeEvents amuletUpdateFromEvents
              rw [foldl_pending updateInfoStep_pending, foldl_pending upgradeStep_pending]
            · split
              · unfold amuletOnOperateEvents amuletUpdateFromEvents
                rw [foldl_pending updateInfoStep_pending, foldl_pending operateStep_pending]
              · split <;> rfl
      · rfl

/-- C10: no operation of the manager ever assigns the amulet
pending-action field after construction, so in every reachable state
`get_amulet_pending_action` returns `None`. -/
theorem C10_pending_action_always_none (s : BMState) (h : Reachable s) :
    get_amulet_pending_action s = none := by
  induction h with
  | init => rfl
  | step msg _ ih =>
    unfold get_amulet_pending_action at ih ⊢
    rw [processMsg_pending]
    exact ih

/-- Witness for C10, at the freshly constructed state. -/
theorem C10_pending_action_always_none_witness :
    get_amulet_pending_action initState = none :=
  C10_pending_action_always_none initState Reachable.init

/-- The pool-(re)set routine leaves a replace queue of at most 49 ids. -/
theorem amuletSetPoolFromArray_replace_len (pool : List PoolElem) (s : BMState) :
    (amuletSetPoolFromArray pool s).amulet_replace_ids.length ≤ 49 := by
  refine le_trans (List.length_filterMap_le _ _) ?_
  simp [List.length_take]

/-- The fetch handler keeps the replace queue at most 49 ids long. -/
theorem amuletOnFetchData_replace_len (d : LiqiData) (s : BMState)
    (hs : s.amulet_replace_ids.length ≤ 49) :
    (amuletOnFetchData d s).amulet_replace_ids.length ≤ 49 := by
  unfold amuletOnFetchData
  rcases d with ⟨dd, ev⟩
  rcases dd with _ | fi
  · exact hs
  · rcases fi with ⟨g⟩
    rcases g with _ | g
    · exact hs
    · dsimp only
      split
      · exact hs
      · exact amuletSetPoolFromArray_replace_len _ _


/-- The upgrade event step keeps the replace queue at most 49 ids long. -/
theorem upgradeStep_replace_len (s : BMState) (ev : EventObj)
    (hs : s.amulet_replace_ids.length ≤ 49) :
    (upgradeStep s ev).amulet_replace_ids.length ≤ 49 := by
  unfold upgradeStep
  dsimp only
  repeat' split
  all_goals
    first
      | exact hs
      | (dsimp only [amuletSetPoolFromArray]
         exact le_trans (List.length_filterMap_le _ _) (by simp [List.length_take]))

/-- The operate event step does not touch the replace queue. -/
theorem operateStep_replace_ids (s : BMState) (ev : EventObj) :
    (operateStep s ev).amulet_replace_ids = s.amulet_replace_ids := by
  unfold operateStep
  dsimp only
  repeat' split
  all_goals rfl

/-- The display-info refresh step does not touch the replace queue. -/
theorem updateInfoStep_replace_ids (s : BMState) (ev : EventObj) :
    (updateInfoStep s ev).amulet_replace_ids = s.amulet_replace_ids := rfl

/-- A fold whose step keeps the replace queue short keeps it short. -/
theorem foldl_replace_len {f : BMState → EventObj → BMState}
    (hf : ∀ s ev, s.amulet_replace_ids.length ≤ 49 →
      (f s ev).amulet_replace_ids.length ≤ 49) :
    ∀ (events : List EventObj) (s : BMState), s.amulet_replace_ids.length ≤ 49 →
      (events.foldl f s).amulet_replace_ids.length ≤ 49
  | [], _, hs => hs
  | e :: t, s, hs => by
    rw [List.foldl_cons]
    exact foldl_replace_len hf t (f s e) (hf s e hs)

/-- Fact: `_process_msg` keeps the replace queue at most 49 ids long. -/
theorem processMsg_replace_len (s : BMState) (msg : WSMessage)
    (hs : s.amulet_replace_ids.length ≤ 49) :
    (processMsg s msg).1.amulet_replace_ids.length ≤ 49 := by
  unfold processMsg
  rcases msg with ⟨ty, fid, content⟩
  cases ty with
  | START => exact hs
  | END =>
    dsimp only
    split <;> split <;> exact hs
  | MESSAGE =>
    rcases content with _ | lm
    · exact hs
    · dsimp only
      split
      · exact hs
      split
      · split <;> exact hs
      split
      · split
        · exact hs
        · split
          · exact amuletOnFetchData_replace_len _ _ hs
          · split
            · unfold amuletOnUpgradeEvents amuletUpdateFromEvents
              refine foldl_replace_len (fun s ev h => ?_) _ _
                (foldl_replace_len upgradeStep_replace_len _ _ hs)
              rw [updateInfoStep_replace_ids]
              exact h
            · split
              · unfold amuletOnOperateEvents amuletUpdateFromEvents
                refine foldl_replace_len (fun s ev h => ?_) _ _
                  (foldl_replace_len (fun s ev h => ?_) _ _ hs)
                · rw [updateInfoStep_replace_ids]
                  exact h
                · rw [operateStep_replace_ids]
                  exact h
              · split
                · simp [giveupReset]
                · exact hs
      · exact hs

/-- In every reachable state the replace queue holds at most 49 ids. -/
theorem reachable_replace_len (s : BMState) (h : Reachable s) :
    s.amulet_replace_ids.length ≤ 49 := by
  induction h with
  | init => simp [initState]
  | step msg _ ih => exact processMsg_replace_len _ msg ih

/-- An operate message whose single event carries a dirty
replacement-history `used` array of length 1000. -/
def opHistory1000Msg : WSMessage :=
  { type := .MESSAGE, flow_id := "f2",
    content := some
      { id := 3, type := .RES, method := .amuletActivityOperate,
        data :=
          { events := some
              [{ valueChanges := some
                  { round := some
                      { used := some
                          { dirty := true,
                            value := some (List.replicate 1000 (0 : Int)) } } } }] } } }

/-- The state reached from construction by a 108-element pool fetch
followed by an operate event whose replacement history has length 1000. -/
def sHistory1000 : BMState :=
  (processMsg (processMsg initState fetchNoResumeMsg).1 opHistory1000Msg).1

set_option maxRecDepth 8000 in
/-- C5 counterexample: after a replacement-history array of length 1000
is applied in a reachable state, the public `get_amulet_replace_cursor`
query returns 1000, not a value clamped into `[0, 49]`; only the
rendering-level cursor is clamped (to the 49-element queue length). -/
theorem C5_unclamped_cursor_read_cex :
    Reachable sHistory1000 ∧
    get_amulet_replace_cursor sHistory1000 = 1000 ∧
    ¬ get_amulet_replace_cursor sHistory1000 ≤ 49 ∧
    renderedReplaceCursor sHistory1000 = 49 :=
  ⟨Reachable.step opHistory1000Msg (Reachable.step fetchNoResumeMsg Reachable.init),
   by decide, by decide, by decide⟩

/-- C5 (amended): `get_amulet_replace_cursor` returns the stored cursor
unclamped; the clamping into `[0, 49]` happens only at rendering time —
in every reachable state the cursor value rendered in the replace-queue
header lies between 0 and 49 inclusive, and when the replace-text query
produces output its header renders exactly that clamped value. -/
theorem C5_cursor_clamped_only_in_render (s : BMState) (h : Reachable s) :
    get_amulet_replace_cursor s = s.amulet_replace_cursor ∧
    0 ≤ renderedReplaceCursor s ∧
    renderedReplaceCursor s ≤ 49 ∧
    (∀ (cvt : String → String),
      s.amulet_active = true → poolTruthy s.amulet_pool = true →
      s.amulet_replace_ids ≠ [] → s.amulet_info.stage = 2 →
      ∃ body, get_amulet_replace_text cvt s
        = "[待替换 " ++ toString (renderedReplaceCursor s) ++ "/"
            ++ toString s.amulet_replace_ids.length ++ "]" ++ "\n" ++ body) := by
  have hlen := reachable_replace_len s h
  have h49 : (s.amulet_replace_ids.length : Int) ≤ 49 := by exact_mod_cast hlen
  refine ⟨?_, ?_, ?_, ?_⟩
  · unfold get_amulet_replace_cursor pyOrInt
    split <;> omega
  · unfold renderedReplaceCursor pyOrInt
    dsimp only
    repeat' split
    all_goals omega
  · unfold renderedReplaceCursor pyOrInt
    dsimp only
    repeat' split
    all_goals omega
  · intro cvt hact hpool hne hstage
    have hne2 : s.amulet_replace_ids.isEmpty = false := by
      cases hl : s.amulet_replace_ids with
      | nil => exact absurd hl hne
      | cons a t => rfl
    have hstage2 : (s.amulet_info.stage ≠ 2) = False := by
      simp [hstage]
    unfold get_amulet_replace_text renderedReplaceCursor
    rw [hact, hpool, hne2, if_neg (by decide),
        if_neg (show ¬(s.amulet_info.stage ≠ 2) by simp [hstage])]
    dsimp only
    simp only [List.length_map]
    exact ⟨_, rfl⟩

/-- Witness for C5 (amended), at the freshly constructed state. -/
theorem C5_cursor_clamped_only_in_render_witness :
    0 ≤ renderedReplaceCursor initState ∧ renderedReplaceCursor initState ≤ 49 :=
  ⟨(C5_cursor_clamped_only_in_render initState Reachable.init).2.1,
   (C5_cursor_clamped_only_in_render initState Reachable.init).2.2.1⟩

/-- Splitting into rows of 9 loses no element: the rows flatten back to
the input. -/
theorem chunks9_flatten (l : List String) : (chunks9 l).flatten = l := by
  induction l using chunks9.induct with
  | case1 l hl =>
    rw [chunks9, dif_pos hl]
    simp only [List.isEmpty_iff] at hl
    simp [hl]
  | case2 l hl ih =>
    rw [chunks9, dif_neg hl]
    simp [ih]

/-- When the input length is a multiple of 9, every row has exactly 9
elements. -/
theorem chunks9_mem_length (l : List String) :
    9 ∣ l.length → ∀ c ∈ chunks9 l, c.length = 9 := by
  induction l using chunks9.induct with
  | case1 l hl =>
    intro _ c hc
    rw [chunks9, dif_pos hl] at hc
    simp at hc
  | case2 l hl ih =>
    intro h9 c hc
    rw [chunks9, dif_neg hl] at hc
    have hne : l ≠ [] := by simpa [List.isEmpty_iff] using hl
    have hpos : 0 < l.length := List.length_pos.mpr hne
    have hge : 9 ≤ l.length := by
      rcases h9 with ⟨k, hk⟩
      omega
    rcases List.mem_cons.mp hc with hc1 | hc2
    · rw [hc1]
      simp [List.length_take]
      omega
    · refine ih ?_ c hc2
      rcases h9 with ⟨k, hk⟩
      refine ⟨k - 1, ?_⟩
      simp [List.length_drop]
      omega

/-- The number of rows is the length divided by 9, rounded up. -/
theorem chunks9_count (l : List String) : (chunks9 l).length = (l.length + 8) / 9 := by
  induction l using chunks9.induct with
  | case1 l hl =>
    rw [chunks9, dif_pos hl]
    simp only [List.isEmpty_iff] at hl
    simp [hl]
  | case2 l hl ih =>
    rw [chunks9, dif_neg hl]
    have hne : l ≠ [] := by simpa [List.isEmpty_iff] using hl
    have hpos : 0 < l.length := List.length_pos.mpr hne
    simp only [List.length_cons, ih, List.length_drop]
    omega

/-- Fact: `_chunk_by9_tail_first` loses no element. -/
theorem chunkBy9TailFirst_flatten (seq : List String) :
    (chunkBy9TailFirst seq).flatten = seq := by
  unfold chunkBy9TailFirst
  dsimp only
  split
  · simp [chunks9_flatten]
  · exact chunks9_flatten seq

/-- Row layout of `_chunk_by9_tail_first` on a non-empty input: there
is at least one row, the first row holds `n % 9` elements (9 when the
remainder is 0), every later row holds exactly 9, and the number of
rows is `n / 9` rounded up. -/
theorem chunkBy9TailFirst_spec (seq : List String) (hne : seq ≠ []) :
    chunkBy9TailFirst seq ≠ [] ∧
    ((chunkBy9TailFirst seq).head?.getD []).length
        = (if seq.length % 9 = 0 then 9 else seq.length % 9) ∧
    (∀ row ∈ (chunkBy9TailFirst seq).tail, row.length = 9) ∧
    (chunkBy9TailFirst seq).length = (seq.length + 8) / 9 := by
  have hpos : 0 < seq.length := List.length_pos.mpr hne
  unfold chunkBy9TailFirst
  dsimp only
  by_cases hr : seq.length % 9 = 0
  · rw [if_neg (by omega)]
    have hge : 9 ≤ seq.length := by omega
    rw [chunks9, dif_neg (by simpa [List.isEmpty_iff] using hne)]
    refine ⟨by simp, ?_, ?_, ?_⟩
    · simp [List.length_take, hr]
      omega
    · intro row hrow
      refine chunks9_mem_length _ ?_ row hrow
      simp [List.length_drop]
      omega
    · simp only [List.length_cons, chunks9_count, List.length_drop]
      omega
  · rw [if_pos (by omega)]
    refine ⟨by simp, ?_, ?_, ?_⟩
    · simp [List.length_take, hr]
      omega
    · intro row hrow
      refine chunks9_mem_length _ ?_ row hrow
      simp [List.length_drop]
      omega
    · simp only [List.length_cons, chunks9_count, List.length_drop]
      omega

/-- The symbols of the frequency tally, in order. -/
theorem statPairs_fst (tiles : List String) :
    (statPairs tiles).map Prod.fst = List.insertionSort (· ≤ ·) tiles.dedup := by
  simp [statPairs, List.map_map, Function.comp_def]

/-- The frequency tally is sorted by symbol. -/
theorem statPairs_sorted (tiles : List String) :
    List.Sorted (· ≤ ·) ((statPairs tiles).map Prod.fst) := by
  rw [statPairs_fst]
  exact List.sorted_insertionSort _ _

/-- Each tally entry pairs a symbol with its occurrence count. -/
theorem statPairs_counts (tiles : List String) :
    ∀ p ∈ statPairs tiles, p.2 = tiles.count p.1 := by
  intro p hp
  rcases List.mem_map.mp hp with ⟨t, _, rfl⟩
  rfl

/-- The tally covers exactly the symbols occurring in the input. -/
theorem statPairs_mem (tiles : List String) (t : String) :
    t ∈ (statPairs tiles).map Prod.fst ↔ t ∈ tiles := by
  rw [statPairs_fst, (List.perm_insertionSort _ _).mem_iff, List.mem_dedup]

/-- The drawable-remaining count `N` of the drawable view: the
server-reported remain clamped into `[0, 36]` (the code clamps to the
draw-segment length, which is 36 for a full pool). -/
def amuletRemainN (s : BMState) : Int :=
  max 0 (min (pyOrInt s.amulet_desktop_remain 0) 36)

/-- The last `N` ids of the draw segment, mapped to tile symbols through
the pool id→symbol table. -/
def drawRemainTiles (s : BMState) (pool : List PoolElem) : List String :=
  (s.amulet_draw_ids.drop (s.amulet_draw_ids.length - (amuletRemainN s).toNat)).map
    fun pid => (id2tile pool pid).getD "?"

/-- C6: in every active state with a known 108-element pool (so the draw
segment holds 36 ids), let `N` be `DesktopRemain` clamped into
`[0, 36]`. If `N = 0`, the drawable-text query returns only the
"0 of 36" header with no tile rows. If `N ≥ 1`, the query renders
exactly the last `N` ids of the draw segment mapped to tile symbols,
laid out in rows of 9 whose first row holds `N mod 9` tiles (9 when the
remainder is 0) and every later row holds exactly 9 — so `N = 36` gives
4 full rows — followed by a symbol-sorted frequency tally of those `N`
tiles. -/
theorem C6_drawable_layout (cvt : String → String) (s : BMState) (pool : List PoolElem)
    (hact : s.amulet_active = true)
    (hpool : s.amulet_pool = some pool)
    (h108 : pool.length = 108)
    (hdraw : s.amulet_draw_ids.length = 36) :
    (amuletRemainN s = 0 → get_amulet_drawable_text cvt s = "[可摸剩余 0/36]") ∧
    (1 ≤ amuletRemainN s →
      get_amulet_drawable_text cvt s
        = String.intercalate "\n"
            (("[可摸剩余 " ++ toString (amuletRemainN s) ++ "/36]")
              :: ((chunkBy9TailFirst (drawRemainTiles s pool)).map fun row =>
                    String.intercalate " " (row.map cvt))
              ++ [String.intercalate " "
                    ((statPairs (drawRemainTiles s pool)).map fun p =>
                      cvt p.1 ++ "×" ++ toString p.2)]) ∧
      (drawRemainTiles s pool).length = (amuletRemainN s).toNat ∧
      (chunkBy9TailFirst (drawRemainTiles s pool)).flatten = drawRemainTiles s pool ∧
      chunkBy9TailFirst (drawRemainTiles s pool) ≠ [] ∧
      ((chunkBy9TailFirst (drawRemainTiles s pool)).head?.getD []).length
        = (if (amuletRemainN s).toNat % 9 = 0 then 9 else (amuletRemainN s).toNat % 9) ∧
      (∀ row ∈ (chunkBy9TailFirst (drawRemainTiles s pool)).tail, row.length = 9) ∧
      (amuletRemainN s = 36 → (chunkBy9TailFirst (drawRemainTiles s pool)).length = 4) ∧
      List.Sorted (· ≤ ·) ((statPairs (drawRemainTiles s pool)).map Prod.fst) ∧
      (∀ p ∈ statPairs (drawRemainTiles s pool),
        p.2 = (drawRemainTiles s pool).count p.1) ∧
      (∀ t : String, t ∈ (statPairs (drawRemainTiles s pool)).map Prod.fst
        ↔ t ∈ drawRemainTiles s pool)) := by
  have hpe : pool.isEmpty = false := by
    cases hp : pool with
    | nil => rw [hp] at h108; simp at h108
    | cons a t => rfl
  have hde : s.amulet_draw_ids.isEmpty = false := by
    cases hl : s.amulet_draw_ids with
    | nil => rw [hl] at hdraw; simp at hdraw
    | cons a t => rfl
  have hN0 : 0 ≤ amuletRemainN s := le_max_left _ _
  have hN36 : amuletRemainN s ≤ 36 := max_le (by omega) (min_le_right _ _)
  have htN36 : (amuletRemainN s).toNat ≤ 36 := by omega
  have hlen : (drawRemainTiles s pool).length = (amuletRemainN s).toNat := by
    unfold drawRemainTiles
    simp [List.length_drop, hdraw]
    omega
  have hfun : get_amulet_drawable_text cvt s
      = if amuletRemainN s = 0 then "[可摸剩余 0/36]"
        else String.intercalate "\n"
            (("[可摸剩余 " ++ toString (amuletRemainN s) ++ "/36]")
              :: ((chunkBy9TailFirst (drawRemainTiles s pool)).map fun row =>
                    String.intercalate " " (row.map cvt))
              ++ [String.intercalate " "
                    ((statPairs (drawRemainTiles s pool)).map fun p =>
                      cvt p.1 ++ "×" ++ toString p.2)]) := by
    unfold get_amulet_drawable_text amuletRemainN drawRemainTiles
    rw [hact, hpool]
    dsimp only [poolTruthy]
    rw [hpe, hde, hdraw]
    unfold amuletRemainN
    norm_num
  constructor
  · intro hz
    rw [hfun, if_pos hz]
  · intro hpos
    have hz : ¬ amuletRemainN s = 0 := by omega
    have htpos : 0 < (amuletRemainN s).toNat := by omega
    have hne : drawRemainTiles s pool ≠ [] := by
      intro he
      rw [he] at hlen
      simp at hlen
      omega
    have hspec := chunkBy9TailFirst_spec (drawRemainTiles s pool) hne
    refine ⟨by rw [hfun, if_neg hz], hlen, chunkBy9TailFirst_flatten _, hspec.1,
      ?_, hspec.2.2.1, ?_, statPairs_sorted _, statPairs_counts _, statPairs_mem _⟩
    · rw [hspec.2.1, hlen]
    · intro h36
      rw [hspec.2.2.2, hlen]
      have : (amuletRemainN s).toNat = 36 := by omega
      rw [this]

/-- The state after the 108-element pool `pool108` is (re)set on an
active subsystem; its remain count is the reset default 36. -/
def sPool36 : BMState :=
  amuletSetPoolFromArray pool108 { initState with amulet_active := true }

/-- Witness for C6, at a concrete full-remain state: 36 remaining tiles
lay out as 4 full rows of 9. -/
theorem C6_drawable_layout_witness :
    (chunkBy9TailFirst (drawRemainTiles sPool36 pool108)).length = 4 :=
  (((C6_drawable_layout id sPool36 pool108 rfl rfl (by decide)
      (by decide)).2 (by decide)).2.2.2.2.2.2.1) (by decide)

end MahjongCopilot




